import Mathlib

set_option maxHeartbeats 1000000
set_option maxRecDepth 4000

/-
Shallow embedding of usb_log_manager.py, the storage lifecycle and tiering
engine of the usblogmon repository.

Modelling conventions:
  - Every OS command the script shells out to (findmnt, blockdev, lsblk,
    blkid, mount, e2fsck, mkfs.ext4, parted, os.statvfs, shutil.move,
    os.remove, fnmatch, json.loads) is an oracle field of an environment
    record.  An `Option` result models a command whose failure the Python
    caller catches (`none` = the exception/empty-output branch).
  - Mutable on-disk state (the JSON config store, /etc/fstab, which
    partitions have been partitioned/formatted/repaired/mounted during the
    current pass, and the file trees the overlay manager walks) is threaded
    explicitly through each function.
  - Each destructive command issued by the drive manager is additionally
    recorded in a trace (`DAction` list) so that "no action is performed on
    device X" becomes a statement about the trace.
  - Machine paths and command outputs are `String`s; Python's `sub in s`
    substring test is infix containment on the underlying character lists.
-/

/-- Python's `sub in s` substring test, as infix containment of character
lists. -/
def containsSub (s sub : String) : Bool := decide (sub.data <:+: s.data)

/-- `os.path.basename` for the slash-separated absolute paths the script
uses: the characters after the last slash (computed on the character list
so that it evaluates by kernel reduction). -/
def basename (s : String) : String :=
  String.mk (s.data.foldl (fun acc c => if c = '/' then [] else acc ++ [c]) [])

/-- `os.path.join a b` for the arguments the script passes (an absolute
first component without a trailing slash and a relative second component). -/
def joinPath (a b : String) : String := a ++ "/" ++ b

/-- Python `str.strip()`: drop leading and trailing whitespace. -/
def pyStrip (s : String) : String :=
  String.mk (((s.data.dropWhile Char.isWhitespace).reverse.dropWhile Char.isWhitespace).reverse)

/-! ## Configuration constants of usb_log_manager.py -/

/-- `SIZE_THRESHOLD = 512 * 10**9`: minimum size for a drive to be managed. -/
def SIZE_THRESHOLD : Nat := 512 * 10 ^ 9

/-- `FS_TYPE = "ext4"`: the target filesystem type. -/
def FS_TYPE : String := "ext4"

/-- `MOUNT_BASE = "/mnt"`. -/
def MOUNT_BASE : String := "/mnt"

/-- `FILE_SIZE_LIMIT = 100 * 1024 * 1024`: threshold for immediate big-file
overflow moves. -/
def FILE_SIZE_LIMIT : Nat := 100 * 1024 * 1024

/-- `EXTERNAL_MOUNT_CHECK = ["/mnt", "/media"]`. -/
def EXTERNAL_MOUNT_CHECK : List String := ["/mnt", "/media"]

/-- `NX_LOG_DIR`. -/
def NX_LOG_DIR : String := "/opt/networkoptix/mediaserver/var/log"

/-- `ARCHIVE_PATTERNS`: glob patterns of disposable log archives. -/
def ARCHIVE_PATTERNS : List String :=
  ["*.zip", "*.gz", "*.bz2", "*.xz", "*.1", "*.old", "*.[0-9]"]

/-! ## Identity and Config Store (`load_config` / `save_config`) -/

/-- The JSON config store: a mapping from partition UUIDs to mount paths
(the only shape of store the drive manager creates). -/
abbrev Store := List (String × String)

/-- `load_config()`.  The config file is `Option String` (`none` = the file
is missing, i.e. `FileNotFoundError`); `parse` is the oracle for
`json.loads` on the stripped contents (`none` = `JSONDecodeError`).  The
result is the returned store together with the file contents after the
call; `save_config(\x7b\x7d)` writes the two-character text `\x7b\x7d`.
The Python source reads the file, strips it, and returns
`json.loads(content) if content else \x7b\x7d`; only `FileNotFoundError`
and `JSONDecodeError` trigger the rewrite. -/
def load_config (parse : String → Option Store) : Option String → Store × Option String
  | none => ([], some "\x7b\x7d")
  | some s =>
    if pyStrip s = "" then ([], some s)
    else
      match parse (pyStrip s) with
      | some store => (store, some s)
      | none => ([], some "\x7b\x7d")

/-- Association lookup in the config store (Python `uuid in config` /
`config[uuid]`). -/
def cfgGet : Store → String → Option String
  | [], _ => none
  | (k, v) :: c, u => if k = u then some v else cfgGet c u

/-! ## Tiered Storage Overlay Manager: state and environment -/

/-- A file inside a walked directory, as its relative path (the list of
path components `os.path.relpath` produces). -/
abbrev RelPath := List String

/-- The file trees the overlay manager walks and mutates: an association
from a directory root (absolute path) to the relative paths of the files
currently under it. -/
abbrev FTree := List (String × List RelPath)

/-- Log messages of the overlay manager that the specification refers to
(warnings and errors; info lines are not modelled). -/
inductive LogMsg where
  | cannotFlushNoExternal (dir : String)
  | cannotFlushNoOverflow (path : String)
  | lowSpace
  | noUpperDir (dir : String)
  | moveFailed (root : String) (rel : RelPath)
  | sizeProbeFailed (root : String) (rel : RelPath)
  | removeFailed (root : String) (rel : RelPath)
deriving DecidableEq

/-- Mutable state of the overlay manager: the walked file trees plus the
log. -/
structure FState where
  tree : FTree
  log : List LogMsg
deriving DecidableEq

/-- Oracles for the OS calls the overlay manager makes. -/
structure FEnv where
  /-- `os.path.isdir`. -/
  isDir : String → Bool
  /-- `os.listdir`. -/
  listing : String → List String
  /-- `os.path.ismount`. -/
  ismount : String → Bool
  /-- `os.path.exists`. -/
  pathExists : String → Bool
  /-- `os.statvfs`: `none` = the call raises; otherwise
  `(f_bavail, f_frsize, f_blocks)`. -/
  statvfs : String → Option (Nat × Nat × Nat)
  /-- `os.path.getsize` on a file under a walked root: `none` = raises. -/
  sizeOf : String → RelPath → Option Nat
  /-- Whether `shutil.move` of this file succeeds. -/
  moveOk : String → RelPath → Bool
  /-- Whether `os.remove` of this file succeeds. -/
  removeOk : String → RelPath → Bool
  /-- `fnmatch.fnmatch name pattern` (Python stdlib, external collaborator). -/
  fnmatchO : String → String → Bool

/-- Lookup of a directory root in a file tree (a root that never appeared
holds no files). -/
def fsGet (t : FTree) (r : String) : List RelPath :=
  match t with
  | [] => []
  | (k, v) :: t => if k = r then v else fsGet t r

/-- Replace (or create) the file list of a directory root. -/
def fsSet (t : FTree) (r : String) (v : List RelPath) : FTree :=
  match t with
  | [] => [(r, v)]
  | (k, w) :: t => if k = r then (r, v) :: t else (k, w) :: fsSet t r v

/-- `find_external_drive()`: scan `EXTERNAL_MOUNT_CHECK` roots in order and
return the first mounted entry found (directory-listing order). -/
def find_external_drive (env : FEnv) : Option String :=
  EXTERNAL_MOUNT_CHECK.findSome? fun base =>
    if env.isDir base then
      (env.listing base).findSome? fun item =>
        let path := joinPath base item
        if env.ismount path then some path else none
    else none

/-- `check_free_space(path, min_percent)`, on the statvfs result for the
path.  Returns `true` iff at least `min_percent`% is free; a raised probe
(`none`) returns `true`.  The Python source computes
`(free_bytes / total_bytes) * 100 >= min_percent` in floating point; this
is its exact-arithmetic idealization (`total = 0` yields 100%). -/
def check_free_space (sv : Option (Nat × Nat × Nat)) (min_percent : Nat) : Bool :=
  match sv with
  | some (bavail, frsize, blocks) =>
    let free_bytes := bavail * frsize
    let total_bytes := blocks * frsize
    if 0 < total_bytes then decide (min_percent * total_bytes ≤ free_bytes * 100)
    else decide (min_percent ≤ 100)
  | none => true

/-- Insert a relative path into a file list unless already present
(`shutil.move` onto an existing destination replaces it). -/
def addUnique (l : List RelPath) (x : RelPath) : List RelPath :=
  if x ∈ l then l else l ++ [x]

/-- `shutil.move` of the file `rel` from root `src` to the same relative
path under root `dst` (with `os.makedirs` of the destination directory). -/
def moveFile (st : FState) (src : String) (rel : RelPath) (dst : String) : FState :=
  let t1 := fsSet st.tree src ((fsGet st.tree src).filter fun r => decide (r ≠ rel))
  { st with tree := fsSet t1 dst (addUnique (fsGet t1 dst) rel) }

/-- The RAM upper-layer directory `f"/mnt/ramdisk_{basename}"` used for a
managed directory. -/
def upPath (dir : String) : String := "/mnt/ramdisk_" ++ basename dir

/-- The durable overflow directory
`os.path.join(external_dir, f"overlay_{basename}")`. -/
def ovPath (ext dir : String) : String := joinPath ext ("overlay_" ++ basename dir)

/-- The per-file move loop of `flush_overlay` over the walked upper-layer
files: each move failure is logged and skipped. -/
def flushMoves (env : FEnv) (up ov : String) : List RelPath → FState → FState
  | [], st => st
  | rel :: rest, st =>
    let st' := if env.moveOk up rel then moveFile st up rel ov
               else { st with log := st.log ++ [.moveFailed up rel] }
    flushMoves env up ov rest st'

/-- `flush_overlay(directory)`: move every file of the RAM upper layer to
the durable overflow directory.  A missing external drive, missing overflow
directory or missing upper directory aborts with a warning; a low
free-space check only logs a warning and the flush proceeds. -/
def flush_overlay (env : FEnv) (st : FState) (dir : String) : FState :=
  match find_external_drive env with
  | none => { st with log := st.log ++ [.cannotFlushNoExternal dir] }
  | some ext =>
    let ov := ovPath ext dir
    if env.pathExists ov = false then { st with log := st.log ++ [.cannotFlushNoOverflow ov] }
    else
      let st1 := if check_free_space (env.statvfs ov) 10 = false
                 then { st with log := st.log ++ [.lowSpace] } else st
      let up := upPath dir
      if env.pathExists up = false then { st1 with log := st1.log ++ [.noUpperDir dir] }
      else flushMoves env up ov (fsGet st1.tree up) st1

/-- The per-file loop of `manage_file_overflow`: move each file larger than
`FILE_SIZE_LIMIT`; size-probe or move failures are logged and skipped. -/
def overflowMoves (env : FEnv) (dir ov : String) : List RelPath → FState → FState
  | [], st => st
  | rel :: rest, st =>
    let st' :=
      match env.sizeOf dir rel with
      | none => { st with log := st.log ++ [.sizeProbeFailed dir rel] }
      | some sz =>
        if FILE_SIZE_LIMIT < sz then
          if env.moveOk dir rel then moveFile st dir rel ov
          else { st with log := st.log ++ [.moveFailed dir rel] }
        else st
    overflowMoves env dir ov rest st'

/-- `manage_file_overflow(directory)`: silently a no-op when no external
drive or no overflow directory exists; otherwise walk the managed directory
and move every file above the size limit to the overflow directory. -/
def manage_file_overflow (env : FEnv) (st : FState) (dir : String) : FState :=
  match find_external_drive env with
  | none => st
  | some ext =>
    let ov := ovPath ext dir
    if env.pathExists ov = false then st
    else overflowMoves env dir ov (fsGet st.tree dir) st

/-- The filename (final component) of a walked file, as matched by
`fnmatch`. -/
def lastComp (rel : RelPath) : String := rel.getLastD ""

/-- The inner pattern loop of `clean_archive_files` for one file: the first
matching pattern triggers `os.remove`; on success the pattern loop breaks,
on failure the error is logged and the remaining patterns are tried. -/
def tryRemovePatterns (env : FEnv) (dir : String) (rel : RelPath) : List String → FState → FState
  | [], st => st
  | pat :: pats, st =>
    if env.fnmatchO (lastComp rel) pat then
      if env.removeOk dir rel then
        { st with tree := fsSet st.tree dir ((fsGet st.tree dir).filter fun r => decide (r ≠ rel)) }
      else tryRemovePatterns env dir rel pats { st with log := st.log ++ [.removeFailed dir rel] }
    else tryRemovePatterns env dir rel pats st

/-- The walk of `clean_archive_files` over the files of a directory. -/
def cleanLoop (env : FEnv) (dir : String) (pats : List String) : List RelPath → FState → FState
  | [], st => st
  | rel :: rest, st => cleanLoop env dir pats rest (tryRemovePatterns env dir rel pats st)

/-- `clean_archive_files(directory, patterns)`. -/
def clean_archive_files (env : FEnv) (st : FState) (dir : String) (pats : List String) : FState :=
  cleanLoop env dir pats (fsGet st.tree dir) st

/-- `clean_nx_logs()`. -/
def clean_nx_logs (env : FEnv) (st : FState) : FState :=
  if env.isDir NX_LOG_DIR then clean_archive_files env st NX_LOG_DIR ARCHIVE_PATTERNS else st

/-- `clean_var_log_archives()`. -/
def clean_var_log_archives (env : FEnv) (st : FState) : FState :=
  if env.isDir "/var/log" then clean_archive_files env st "/var/log" ARCHIVE_PATTERNS else st

/-! ## Drive Lifecycle Manager: state, environment and actions -/

/-- The destructive/externally visible commands the drive manager issues,
tagged with the device they act on.  `fstabW` records appending a
persistent mount-table line (tagged with the partition whose UUID is
written). -/
inductive DAction where
  | mklabel (drive : String)
  | mkpart (drive : String)
  | format (dev : String)
  | fsckA (dev : String)
  | mountA (dev : String) (mp : String)
  | fstabW (dev : String) (uuid : String) (mp : String)
deriving DecidableEq

/-- The device node an action acts on. -/
def actionTarget : DAction → String
  | .mklabel d => d
  | .mkpart d => d
  | .format p => p
  | .fsckA p => p
  | .mountA p _ => p
  | .fstabW p _ _ => p

/-- Mutable state threaded through one `manage_drives` pass: the config
store, the /etc/fstab contents, and which devices have been partitioned /
formatted / fsck-repaired / newly mounted so far in this pass. -/
structure DState where
  config : Store
  fstab : String
  parted : List String
  formatted : List String
  repaired : List String
  nowMounted : List String
deriving DecidableEq

/-- Oracles for the OS commands of the drive manager.  Oracles take the
relevant pass-local state explicitly: `lsblk` additionally depends on
whether a partition table was created on the drive this pass, `mountOk` on
whether the partition was repaired/reformatted, and the UUID changes when
the partition is reformatted. -/
structure Env where
  /-- `pyudev` block-device enumeration result. -/
  devices : List String
  /-- Whether the `pyudev` enumeration raises (uncaught in the source). -/
  udevFail : Bool
  /-- `findmnt -n -o SOURCE /` output (`none` = the command fails). -/
  rootSource : Option String
  /-- `blockdev --getsize64` (`none` = fails, caught and treated as 0). -/
  blockdevSize : String → Option Nat
  /-- `lsblk -l -n -o NAME drive` lines (already stripped), possibly
  different after `parted` ran on the drive this pass; `none` = fails. -/
  lsblk : String → Bool → Option (List String)
  /-- `blkid -o value -s TYPE` stdout for a never-reformatted partition
  (`none` = raises; `some ""` = empty output). -/
  blkidType : String → Option String
  /-- `blkid -o value -s UUID` for a never-reformatted partition. -/
  blkidUUID : String → Option String
  /-- The UUID after `mkfs.ext4` reformatted the partition this pass. -/
  uuidAfterFormat : String → Option String
  /-- Whether `findmnt partition` succeeded at the start of the pass. -/
  mountedInit : String → Bool
  /-- Whether `mount mount_point` succeeds, given whether the partition was
  fsck-repaired and whether it was reformatted this pass. -/
  mountOk : String → Bool → Bool → Bool
  /-- Whether `e2fsck -fy` succeeds. -/
  fsckOk : String → Bool
  /-- Whether `mkfs.ext4 -F` succeeds. -/
  mkfsOk : String → Bool
  /-- Whether `parted -s drive mklabel gpt` succeeds. -/
  mklabelOk : String → Bool
  /-- Whether `parted -s drive mkpart ...` succeeds. -/
  mkpartOk : String → Bool

/-- `is_boot_drive(drive)`: `drive in findmnt_output` (substring test);
any exception yields `False`. -/
def is_boot_drive (env : Env) (drive : String) : Bool :=
  match env.rootSource with
  | some mount_info => containsSub mount_info drive
  | none => false

/-- `get_device_size(drive)`: `blockdev --getsize64`, 0 on failure. -/
def get_device_size (env : Env) (drive : String) : Nat :=
  (env.blockdevSize drive).getD 0

/-- The partition list derived from the `lsblk` output: every non-empty
line other than the drive's own basename, prefixed with `/dev/`.  The
`Bool` records whether `parted` has run on the drive this pass. -/
def partsOf (env : Env) (d : String) (afterParted : Bool) : List String :=
  match env.lsblk d afterParted with
  | none => []
  | some lines =>
    (lines.filter fun p => p != "" && p != basename d).map fun p => "/dev/" ++ p

/-- `get_partitions(drive)` at the current pass state. -/
def get_partitions (env : Env) (st : DState) (d : String) : List String :=
  partsOf env d (decide (d ∈ st.parted))

/-- All partition nodes `lsblk` can ever report for a drive during one
pass (before or after partitioning). -/
def partsUniverse (env : Env) (d : String) : List String :=
  partsOf env d false ++ partsOf env d true

/-- `get_partition_fs_type(partition)`: empty blkid output or a raised
command is `None`; a partition reformatted this pass reads back as ext4. -/
def get_partition_fs_type (env : Env) (st : DState) (p : String) : Option String :=
  if p ∈ st.formatted then some FS_TYPE
  else
    match env.blkidType p with
    | none => none
    | some t => if t = "" then none else some t

/-- `get_device_uuid(partition)`; reformatting gives the partition a new
UUID. -/
def get_device_uuid (env : Env) (st : DState) (p : String) : Option String :=
  if p ∈ st.formatted then env.uuidAfterFormat p else env.blkidUUID p

/-- `is_mounted(partition)`: mounted at pass start or mounted earlier in
this pass. -/
def is_mounted (env : Env) (st : DState) (p : String) : Bool :=
  env.mountedInit p || decide (p ∈ st.nowMounted)

/-- `approximate_size(size_bytes)`: decimal gigabytes/terabytes label.
The Python source divides in floating point and truncates with `int`;
this is the exact integer idealization. -/
def approximate_size (size_bytes : Nat) : String :=
  let gb := size_bytes / 10 ^ 9
  if 1000 ≤ gb then toString (size_bytes / 10 ^ 12) ++ "T"
  else toString gb ++ "G"

/-- Python `uuid[-4:]` (whole string when shorter than 4). -/
def last4 (u : String) : String :=
  String.mk (u.data.drop (u.data.length - 4))

/-- `generate_mount_name(size_bytes, uuid)`. -/
def generate_mount_name (size_bytes : Nat) (uuid : String) : String :=
  "d" ++ approximate_size size_bytes ++ "-" ++ last4 uuid

/-- `run_fsck(partition)`: returns whether `e2fsck -fy` succeeded and
records a successful repair. -/
def run_fsck (env : Env) (st : DState) (p : String) : Bool × DState × List DAction :=
  if env.fsckOk p then (true, { st with repaired := p :: st.repaired }, [.fsckA p])
  else (false, st, [.fsckA p])

/-- `attempt_mount(partition, mount_point)`: runs `mount mount_point` and
records a successful mount. -/
def attempt_mount (env : Env) (st : DState) (p mp : String) : Bool × DState × List DAction :=
  if env.mountOk p (decide (p ∈ st.repaired)) (decide (p ∈ st.formatted))
  then (true, { st with nowMounted := p :: st.nowMounted }, [.mountA p mp])
  else (false, st, [.mountA p mp])

/-- `format_partition(partition)`: runs `mkfs.ext4 -F`; a failure is
logged and swallowed. -/
def format_partition (env : Env) (st : DState) (p : String) : DState × List DAction :=
  if env.mkfsOk p then ({ st with formatted := p :: st.formatted }, [.format p])
  else (st, [.format p])

/-- `attempt_repair_and_remount(partition, mount_point)`: if the partition
is ext4, fsck-repair then retry the mount, reformatting (and mounting once
more) only when the repair or the post-repair mount fails; a partition of
any other type is reformatted directly. -/
def attempt_repair_and_remount (env : Env) (st : DState) (p mp : String) :
    Bool × DState × List DAction :=
  if get_partition_fs_type env st p = some FS_TYPE then
    let r := run_fsck env st p
    if r.1 then
      let m := attempt_mount env r.2.1 p mp
      if m.1 then (true, m.2.1, r.2.2 ++ m.2.2)
      else
        let f := format_partition env m.2.1 p
        let m2 := attempt_mount env f.1 p mp
        (m2.1, m2.2.1, r.2.2 ++ m.2.2 ++ f.2 ++ m2.2.2)
    else
      let f := format_partition env r.2.1 p
      let m2 := attempt_mount env f.1 p mp
      (m2.1, m2.2.1, r.2.2 ++ f.2 ++ m2.2.2)
  else
    let f := format_partition env st p
    let m := attempt_mount env f.1 p mp
    (m.1, m.2.1, f.2 ++ m.2.2)

/-- `mount_partition(partition, config, size_bytes)`: resolve (or create
and persist) the UUID's mount assignment, append the fstab line unless one
for this UUID already exists, and mount unless already mounted, escalating
to repair/reformat on failure.  The returned `Option String` is the
resolved mount path (`none` when no usable UUID could be read and the
partition was skipped). -/
def mount_partition (env : Env) (st : DState) (p : String) (size_bytes : Nat) :
    Option String × DState × List DAction :=
  match get_device_uuid env st p with
  | none => (none, st, [])
  | some uuid =>
    if uuid = "" then (none, st, [])
    else
      let res :=
        match cfgGet st.config uuid with
        | some mp => (mp, st)
        | none =>
          let mp := MOUNT_BASE ++ "/" ++ generate_mount_name size_bytes uuid
          (mp, { st with config := (uuid, mp) :: st.config })
      let mp := res.1
      let st1 := res.2
      if is_mounted env st1 p then (some mp, st1, [])
      else
        let res2 :=
          if containsSub st1.fstab ("UUID=" ++ uuid) then (st1, ([] : List DAction))
          else
            ({ st1 with fstab :=
                st1.fstab ++ ("UUID=" ++ uuid) ++ (" " ++ mp ++ " " ++ FS_TYPE ++ " defaults,noatime 0 2\n") },
             [.fstabW p uuid mp])
        let st2 := res2.1
        let m := attempt_mount env st2 p mp
        if m.1 then (some mp, m.2.1, res2.2 ++ m.2.2)
        else
          let r := attempt_repair_and_remount env m.2.1 p mp
          (some mp, r.2.1, res2.2 ++ m.2.2 ++ r.2.2)

/-- `create_partition_and_format(drive)`: GPT label, one whole-device
primary partition, then format the first partition `lsblk` now reports; a
`parted` failure is caught and yields `None`. -/
def create_partition_and_format (env : Env) (st : DState) (d : String) :
    Option String × DState × List DAction :=
  if env.mklabelOk d then
    if env.mkpartOk d then
      let st1 : DState := { st with parted := d :: st.parted }
      match get_partitions env st1 d with
      | [] => (none, st1, [.mklabel d, .mkpart d])
      | p :: _ =>
        let f := format_partition env st1 p
        (some p, f.1, [.mklabel d, .mkpart d] ++ f.2)
    else (none, st, [.mklabel d, .mkpart d])
  else (none, st, [.mklabel d])

/-- The per-partition loop body of `manage_drives` for a qualifying drive
that already has partitions: reformat any partition that is not ext4, then
mount it. -/
def partsLoop (env : Env) (size_bytes : Nat) : List String → DState → DState × List DAction
  | [], st => (st, [])
  | p :: ps, st =>
    let f := if get_partition_fs_type env st p ≠ some FS_TYPE
             then format_partition env st p else (st, [])
    let m := mount_partition env f.1 p size_bytes
    let rest := partsLoop env size_bytes ps m.2.1
    (rest.1, f.2 ++ m.2.2 ++ rest.2)

/-- The body of `manage_drives` for one enumerated drive: skip the boot
drive, skip drives below `SIZE_THRESHOLD`, create-and-format a partition
when there is none, otherwise run the per-partition loop. -/
def driveStep (env : Env) (st : DState) (d : String) : DState × List DAction :=
  if is_boot_drive env d then (st, [])
  else
    let size := get_device_size env d
    if size < SIZE_THRESHOLD then (st, [])
    else
      match get_partitions env st d with
      | [] =>
        let c := create_partition_and_format env st d
        match c.1 with
        | some p =>
          let m := mount_partition env c.2.1 p size
          (m.2.1, c.2.2 ++ m.2.2)
        | none => (c.2.1, c.2.2)
      | p :: ps => partsLoop env size (p :: ps) st

/-- The drive loop of `manage_drives` over the enumerated devices. -/
def manageDrivesRun (env : Env) : List String → DState → DState × List DAction
  | [], st => (st, [])
  | d :: ds, st =>
    let s := driveStep env st d
    let rest := manageDrivesRun env ds s.1
    (rest.1, s.2 ++ rest.2)

/-- `list_block_devices()`: the `pyudev` enumeration, which the source does
not guard with any try/except. -/
def list_block_devices (env : Env) : Except Unit (List String) :=
  if env.udevFail then .error () else .ok env.devices

/-- `manage_drives()`: enumerate devices and process each.  An exception
raised by the enumeration propagates (`Except.error`); the state starts
from the loaded config store. -/
def manage_drives (env : Env) (st : DState) : Except Unit (DState × List DAction) :=
  match list_block_devices env with
  | .error e => .error e
  | .ok drives => .ok (manageDrivesRun env drives st)

/-! ## Control loop -/

/-- The combined state one pass of the main loop acts on. -/
structure SysState where
  dstate : DState
  fstate : FState
  trace : List DAction
deriving DecidableEq

/-- One iteration of the `while True:` body of `main()`, restricted to the
storage-engine operations modelled here (`ensure_service_running` and
`update_script` catch their own errors and touch no modelled state;
`skipDisks` is the environment-detection flag, `doFlush` the 12-hour flush
timer).  The source wraps this body in no try/except: an error escaping
`manage_drives` propagates out of the loop. -/
def loop_pass (denv : Env) (fenv : FEnv) (skipDisks doFlush : Bool) (s : SysState) :
    Except Unit SysState :=
  match (if skipDisks then Except.ok (s.dstate, ([] : List DAction)) else manage_drives denv s.dstate) with
  | .error e => .error e
  | .ok (dst, tr) =>
    let f1 := clean_nx_logs fenv s.fstate
    let f2 := clean_var_log_archives fenv f1
    let f3 := manage_file_overflow fenv f2 "/var/log"
    let f4 := manage_file_overflow fenv f3 "/tmp"
    let f5 := if doFlush then flush_overlay fenv (flush_overlay fenv f4 "/var/log") "/tmp" else f4
    .ok { dstate := dst, fstate := f5, trace := s.trace ++ tr }

/-- Iterating the control loop: an `Except.error` outcome is the loop (and
the daemon) terminating on an uncaught exception instead of sleeping and
continuing. -/
def loop_iterate (denv : Env) (fenv : FEnv) (skipDisks doFlush : Bool) :
    Nat → SysState → Except Unit SysState
  | 0, s => .ok s
  | n + 1, s =>
    match loop_pass denv fenv skipDisks doFlush s with
    | .error e => .error e
    | .ok s' => loop_iterate denv fenv skipDisks doFlush n s'

/-! ## Concrete environments used to evaluate the model -/

/-- A concrete machine: `/dev/sda` (256 GB) backs the root filesystem,
`/dev/sdb` (1 TB) is an attached ext4 data drive, `/dev/sdc` (100 GB) is a
small removable drive. -/
def envW : Env where
  devices := ["/dev/sda", "/dev/sdb", "/dev/sdc"]
  udevFail := false
  rootSource := some "/dev/sda2"
  blockdevSize := fun d =>
    if d = "/dev/sda" then some (256 * 10 ^ 9)
    else if d = "/dev/sdb" then some (10 ^ 12)
    else if d = "/dev/sdc" then some (100 * 10 ^ 9) else none
  lsblk := fun d _ =>
    if d = "/dev/sda" then some ["sda", "sda1", "sda2"]
    else if d = "/dev/sdb" then some ["sdb", "sdb1"]
    else if d = "/dev/sdc" then some ["sdc"] else none
  blkidType := fun p => if p = "/dev/sdb1" then some "ext4" else none
  blkidUUID := fun p => if p = "/dev/sdb1" then some "abcd1234" else none
  uuidAfterFormat := fun p => if p = "/dev/sdb1" then some "abcd1234" else none
  mountedInit := fun _ => false
  mountOk := fun _ _ _ => true
  fsckOk := fun _ => true
  mkfsOk := fun _ => true
  mklabelOk := fun _ => true
  mkpartOk := fun _ => true

/-- The empty pass-start state (empty config store and fstab). -/
def st0W : DState where
  config := []
  fstab := ""
  parted := []
  formatted := []
  repaired := []
  nowMounted := []

/-- A machine where the first mount of `/dev/sdb1` fails and succeeds only
after the partition is reformatted, exercising the full repair escalation. -/
def envC5 : Env where
  devices := ["/dev/sdb"]
  udevFail := false
  rootSource := none
  blockdevSize := fun _ => some (10 ^ 12)
  lsblk := fun _ _ => some ["sdb", "sdb1"]
  blkidType := fun _ => some "ext4"
  blkidUUID := fun _ => some "beef1234"
  uuidAfterFormat := fun _ => some "beef1234"
  mountedInit := fun _ => false
  mountOk := fun _ _ reformatted => reformatted
  fsckOk := fun _ => true
  mkfsOk := fun _ => true
  mklabelOk := fun _ => true
  mkpartOk := fun _ => true

/-- A machine where the `pyudev` device enumeration raises. -/
def envDfail : Env where
  devices := []
  udevFail := true
  rootSource := none
  blockdevSize := fun _ => none
  lsblk := fun _ _ => none
  blkidType := fun _ => none
  blkidUUID := fun _ => none
  uuidAfterFormat := fun _ => none
  mountedInit := fun _ => false
  mountOk := fun _ _ _ => false
  fsckOk := fun _ => false
  mkfsOk := fun _ => false
  mklabelOk := fun _ => false
  mkpartOk := fun _ => false

/-- The same machine with a working enumeration. -/
def envDok : Env := { envDfail with udevFail := false }

/-- A trivial overlay environment (nothing mounted, every probe fails). -/
def fenvTriv : FEnv where
  isDir := fun _ => false
  listing := fun _ => []
  ismount := fun _ => false
  pathExists := fun _ => false
  statvfs := fun _ => none
  sizeOf := fun _ _ => none
  moveOk := fun _ _ => false
  removeOk := fun _ _ => false
  fnmatchO := fun _ _ => false

/-- The empty combined state. -/
def s0W : SysState where
  dstate := st0W
  fstate := { tree := [], log := [] }
  trace := []

/-- An overlay environment with an external drive mounted at `/mnt/usb`
and every move succeeding; statvfs reports ample free space. -/
def fenvUsb : FEnv where
  isDir := fun d => d = "/mnt"
  listing := fun d => if d = "/mnt" then ["usb"] else []
  ismount := fun p => p = "/mnt/usb"
  pathExists := fun _ => true
  statvfs := fun _ => some (90, 4096, 100)
  sizeOf := fun root rel =>
    if root = "/var/log" ∧ rel = ["big.log"] then some (150 * 1024 * 1024)
    else if root = "/var/log" ∧ rel = ["small.log"] then some (10 * 1024 * 1024)
    else none
  moveOk := fun _ _ => true
  removeOk := fun _ _ => true
  fnmatchO := fun _ _ => false

/-- The same mounted machine but with the durable volume almost full (zero
free blocks). -/
def fenvUsbFull : FEnv := { fenvUsb with statvfs := fun _ => some (0, 4096, 100) }

/-- A RAM upper layer for `/var/log` holding two files, one of them in a
subdirectory. -/
def stW6 : FState where
  tree := [("/mnt/ramdisk_log", [["a.log"], ["nx", "b.log"]])]
  log := []

/-- A managed `/var/log` holding one 150 MB file and one 10 MB file. -/
def stW7 : FState where
  tree := [("/var/log", [["big.log"], ["small.log"]])]
  log := []

/-- A concrete `json.loads` oracle: exactly the text `ok` parses, to a
one-entry store. -/
def parseW : String → Option Store :=
  fun t => if t = "ok" then some [("u", "/mnt/x")] else none

/-! ## Lemmas about the file-tree state -/

theorem fsGet_fsSet_self (t : FTree) (r : String) (v : List RelPath) :
    fsGet (fsSet t r v) r = v := by
  induction t with
  | nil => simp [fsGet, fsSet]
  | cons kv t ih =>
    obtain ⟨k, w⟩ := kv
    by_cases h : k = r <;> simp [fsGet, fsSet, h, ih]

theorem fsGet_fsSet_ne (t : FTree) {r r' : String} (v : List RelPath) (h : r' ≠ r) :
    fsGet (fsSet t r v) r' = fsGet t r' := by
  induction t with
  | nil =>
    simp only [fsGet, fsSet]
    rw [if_neg (fun hrr => h hrr.symm)]
  | cons kv t ih =>
    obtain ⟨k, w⟩ := kv
    by_cases hk : k = r
    · subst hk
      simp only [fsGet, fsSet, if_pos rfl]
      rw [if_neg (fun hrr => h hrr.symm), if_neg (fun hrr => h hrr.symm)]
    · simp [fsGet, fsSet, hk, ih]

theorem mem_addUnique (l : List RelPath) (x : RelPath) : x ∈ addUnique l x := by
  unfold addUnique
  split
  · assumption
  · simp

theorem mem_addUnique_of_mem (l : List RelPath) (x y : RelPath) (h : y ∈ l) :
    y ∈ addUnique l x := by
  unfold addUnique
  split
  · exact h
  · simp [h]

theorem moveFile_get_src {src dst : String} (st : FState) (rel : RelPath)
    (hne : src ≠ dst) :
    fsGet (moveFile st src rel dst).tree src =
      (fsGet st.tree src).filter fun r => decide (r ≠ rel) := by
  unfold moveFile
  rw [fsGet_fsSet_ne _ _ hne, fsGet_fsSet_self]

theorem moveFile_get_dst {src dst : String} (st : FState) (rel : RelPath)
    (hne : src ≠ dst) :
    fsGet (moveFile st src rel dst).tree dst = addUnique (fsGet st.tree dst) rel := by
  unfold moveFile
  rw [fsGet_fsSet_self, fsGet_fsSet_ne _ _ (Ne.symm hne)]

theorem moveFile_log (st : FState) (src dst : String) (rel : RelPath) :
    (moveFile st src rel dst).log = st.log := rfl

/-! ## Lemmas about the flush move loop -/

theorem flushMoves_get_up (env : FEnv) {up ov : String} (hne : up ≠ ov) :
    ∀ (files : List RelPath) (st : FState), (∀ r ∈ files, env.moveOk up r = true) →
      fsGet (flushMoves env up ov files st).tree up =
        (fsGet st.tree up).filter fun r => decide (r ∉ files) := by
  intro files
  induction files with
  | nil =>
    intro st _
    simp [flushMoves, List.filter_eq_self]
  | cons f fs ih =>
    intro st hok
    have hf : env.moveOk up f = true := hok f (List.mem_cons_self f fs)
    simp only [flushMoves, hf, if_true]
    rw [ih _ fun r hr => hok r (List.mem_cons_of_mem f hr)]
    rw [moveFile_get_src st f hne, List.filter_filter]
    apply List.filter_congr
    intro a _
    by_cases haf : a = f <;> by_cases hafs : a ∈ fs <;> simp [haf, hafs]

theorem flushMoves_ov_mono (env : FEnv) {up ov : String} (hne : up ≠ ov) :
    ∀ (files : List RelPath) (st : FState) (r : RelPath),
      r ∈ fsGet st.tree ov → r ∈ fsGet (flushMoves env up ov files st).tree ov := by
  intro files
  induction files with
  | nil => intro st r h; simpa [flushMoves] using h
  | cons f fs ih =>
    intro st r h
    simp only [flushMoves]
    split
    · exact ih _ r (by rw [moveFile_get_dst st f hne]; exact mem_addUnique_of_mem _ _ _ h)
    · exact ih _ r h

theorem flushMoves_mem_ov (env : FEnv) {up ov : String} (hne : up ≠ ov) :
    ∀ (files : List RelPath) (st : FState) (r : RelPath),
      r ∈ files → env.moveOk up r = true →
      r ∈ fsGet (flushMoves env up ov files st).tree ov := by
  intro files
  induction files with
  | nil => intro st r h; exact absurd h (List.not_mem_nil r)
  | cons f fs ih =>
    intro st r hmem hok
    rcases List.mem_cons.mp hmem with hrf | hrfs
    · subst hrf
      simp only [flushMoves, hok, if_true]
      exact flushMoves_ov_mono env hne fs _ r
        (by rw [moveFile_get_dst st r hne]; exact mem_addUnique _ r)
    · simp only [flushMoves]
      split
      · exact ih _ r hrfs hok
      · exact ih _ r hrfs hok

theorem flushMoves_log_mono (env : FEnv) (up ov : String) :
    ∀ (files : List RelPath) (st : FState) (m : LogMsg),
      m ∈ st.log → m ∈ (flushMoves env up ov files st).log := by
  intro files
  induction files with
  | nil => intro st m h; simpa [flushMoves] using h
  | cons f fs ih =>
    intro st m h
    simp only [flushMoves]
    split
    · exact ih _ m (by rw [moveFile_log]; exact h)
    · exact ih _ m (by simp [h])

/-- The RAM upper-layer path and the durable overflow path of a managed
directory are always distinct (so moving a file between them never acts on
a single directory). -/
theorem upPath_ne_ovPath (ext dir : String) : upPath dir ≠ ovPath ext dir := by
  unfold upPath ovPath joinPath
  intro h
  have hd : ("/mnt/ramdisk_" ++ basename dir).data =
      (ext ++ "/" ++ ("overlay_" ++ basename dir)).data := by rw [h]
  simp only [String.data_append] at hd
  have hd' : (['/', 'm', 'n', 't', '/', 'r', 'a', 'm', 'd', 'i', 's', 'k', '_'] : List Char)
        ++ (basename dir).data =
      (ext.data ++ ['/', 'o', 'v', 'e', 'r', 'l', 'a', 'y', '_']) ++ (basename dir).data := by
    simpa [List.append_assoc] using hd
  have hX : (['/', 'm', 'n', 't', '/', 'r', 'a', 'm', 'd', 'i', 's', 'k', '_'] : List Char)
      = ext.data ++ ['/', 'o', 'v', 'e', 'r', 'l', 'a', 'y', '_'] :=
    List.append_cancel_right hd'
  have hlen : ext.data.length = 4 := by
    have hl := congrArg List.length hX
    simp [List.length_append] at hl
    exact hl
  have hdrop := congrArg (List.drop 4) hX
  rw [show (4 : Nat) = ext.data.length from hlen.symm, List.drop_left] at hdrop
  rw [hlen] at hdrop
  exact absurd hdrop (by decide)

/-- The two flush postconditions, for an arbitrary starting state whose
upper-layer moves all succeed. -/
theorem flushMoves_complete (env : FEnv) {up ov : String} (hne : up ≠ ov) (st : FState)
    (hmv : ∀ r ∈ fsGet st.tree up, env.moveOk up r = true) :
    fsGet (flushMoves env up ov (fsGet st.tree up) st).tree up = [] ∧
    ∀ rel ∈ fsGet st.tree up,
      rel ∈ fsGet (flushMoves env up ov (fsGet st.tree up) st).tree ov := by
  constructor
  · rw [flushMoves_get_up env hne _ st hmv]
    exact List.filter_eq_nil_iff.mpr fun a ha => by simp [ha]
  · intro rel hrel
    exact flushMoves_mem_ov env hne _ st rel hrel (hmv rel hrel)

/-- Claim C6 (flush completeness): given a RAM upper layer and an existing
durable overflow directory, after one run of `flush_overlay` in which no
individual move fails, the RAM upper layer contains zero files, and every
file that existed in the upper layer immediately before the flush exists at
the identical relative path under the durable overflow directory. -/
theorem claim6_flush_completeness (env : FEnv) (st : FState) (dir ext : String)
    (hext : find_external_drive env = some ext)
    (hov : env.pathExists (ovPath ext dir) = true)
    (hup : env.pathExists (upPath dir) = true)
    (hmv : ∀ rel ∈ fsGet st.tree (upPath dir), env.moveOk (upPath dir) rel = true) :
    fsGet (flush_overlay env st dir).tree (upPath dir) = [] ∧
    ∀ rel ∈ fsGet st.tree (upPath dir),
      rel ∈ fsGet (flush_overlay env st dir).tree (ovPath ext dir) := by
  have hne := upPath_ne_ovPath ext dir
  unfold flush_overlay
  rw [hext]
  simp only [hov, Bool.true_eq_false, if_false]
  by_cases hch : check_free_space (env.statvfs (ovPath ext dir)) 10 = false
  · rw [if_pos hch]
    simp only [hup, Bool.true_eq_false, if_false]
    exact flushMoves_complete env hne { st with log := st.log ++ [LogMsg.lowSpace] } hmv
  · rw [if_neg hch]
    simp only [hup, Bool.true_eq_false, if_false]
    exact flushMoves_complete env hne st hmv

/-- Claim C7 (overflow correctness): in the concrete managed directory
`/var/log` holding a 150 MB file and a 10 MB file (threshold 100 MB),
one run of `manage_file_overflow` leaves the 150 MB file only under the
durable overflow path at the same relative path and keeps the 10 MB file
in the RAM layer. -/
theorem claim7_overflow_correctness :
    fsGet (manage_file_overflow fenvUsb stW7 "/var/log").tree "/var/log" = [["small.log"]] ∧
    fsGet (manage_file_overflow fenvUsb stW7 "/var/log").tree "/mnt/usb/overlay_log"
      = [["big.log"]] := by
  decide

/-- Claim C8 (low space never blocks the flush): when the overflow
directory is found but the free-space check reports less than the 10%
minimum, `flush_overlay` still performs exactly the per-file moves of the
upper layer, and the only additional effect of the low-space condition is
the warning line in the log. -/
theorem claim8_low_space_does_not_block (env : FEnv) (st : FState) (dir ext : String)
    (hext : find_external_drive env = some ext)
    (hov : env.pathExists (ovPath ext dir) = true)
    (hup : env.pathExists (upPath dir) = true)
    (hlow : check_free_space (env.statvfs (ovPath ext dir)) 10 = false) :
    flush_overlay env st dir =
      flushMoves env (upPath dir) (ovPath ext dir)
        (fsGet st.tree (upPath dir)) { st with log := st.log ++ [.lowSpace] } ∧
    LogMsg.lowSpace ∈ (flush_overlay env st dir).log := by
  have h1 : flush_overlay env st dir =
      flushMoves env (upPath dir) (ovPath ext dir)
        (fsGet st.tree (upPath dir)) { st with log := st.log ++ [.lowSpace] } := by
    unfold flush_overlay
    rw [hext]
    simp only [hov, Bool.true_eq_false, if_false, if_pos hlow, hup]
  refine ⟨h1, ?_⟩
  rw [h1]
  exact flushMoves_log_mono env _ _ _ _ _ (by simp)

/-- Claim C10 (free-space probe totality over failures): when the
underlying `os.statvfs` query raises, `check_free_space` returns `True`
for every requested minimum percentage, so a broken space probe can never
make a caller take the low-space branch. -/
theorem claim10_probe_failure_reports_enough :
    ∀ min_percent : Nat, check_free_space none min_percent = true :=
  fun _ => rfl

/-- Witness for C6: the hypotheses hold and the conclusion evaluates on the
concrete two-file upper layer. -/
theorem claim6_witness :
    (find_external_drive fenvUsb = some "/mnt/usb" ∧
     fenvUsb.pathExists (ovPath "/mnt/usb" "/var/log") = true ∧
     fenvUsb.pathExists (upPath "/var/log") = true ∧
     ∀ rel ∈ fsGet stW6.tree (upPath "/var/log"),
       fenvUsb.moveOk (upPath "/var/log") rel = true) ∧
    (fsGet (flush_overlay fenvUsb stW6 "/var/log").tree (upPath "/var/log") = [] ∧
     ∀ rel ∈ fsGet stW6.tree (upPath "/var/log"),
       rel ∈ fsGet (flush_overlay fenvUsb stW6 "/var/log").tree (ovPath "/mnt/usb" "/var/log")) :=
  ⟨⟨by decide, by decide, by decide, by decide⟩,
    claim6_flush_completeness fenvUsb stW6 "/var/log" "/mnt/usb"
      (by decide) (by decide) (by decide) (by decide)⟩

/-- Witness for C8: on the nearly-full durable volume the hypotheses hold
and the flush still moves the files. -/
theorem claim8_witness :
    (find_external_drive fenvUsbFull = some "/mnt/usb" ∧
     fenvUsbFull.pathExists (ovPath "/mnt/usb" "/var/log") = true ∧
     fenvUsbFull.pathExists (upPath "/var/log") = true ∧
     check_free_space (fenvUsbFull.statvfs (ovPath "/mnt/usb" "/var/log")) 10 = false) ∧
    (flush_overlay fenvUsbFull stW6 "/var/log" =
      flushMoves fenvUsbFull (upPath "/var/log") (ovPath "/mnt/usb" "/var/log")
        (fsGet stW6.tree (upPath "/var/log")) { stW6 with log := stW6.log ++ [.lowSpace] } ∧
     LogMsg.lowSpace ∈ (flush_overlay fenvUsbFull stW6 "/var/log").log) :=
  ⟨⟨by decide, by decide, by decide, by decide⟩,
    claim8_low_space_does_not_block fenvUsbFull stW6 "/var/log" "/mnt/usb"
      (by decide) (by decide) (by decide) (by decide)⟩

/-- Claim C9, counterexample: a whitespace-only config file is not valid
JSON (the `json.loads` behaviour on it is `JSONDecodeError`, modelled by a
parse oracle returning `none`), yet `load_config` returns the empty store
WITHOUT rewriting the file as `\x7b\x7d` — the source short-circuits on
empty stripped contents before ever calling `json.loads`, so the claimed
rewrite does not happen. -/
theorem claim9_counterexample :
    (fun _ : String => (none : Option Store)) (pyStrip " ") = none ∧
    load_config (fun _ => none) (some " ") = ([], some " ") ∧
    (some " " : Option String) ≠ some "\x7b\x7d" :=
  ⟨rfl, by decide, by decide⟩

/-- Claim C9 as amended: a missing file, or a file whose stripped contents
are non-empty and fail to parse, yields the empty store and rewrites the
file as `\x7b\x7d`; a file parsing to a JSON object is returned exactly,
without modifying the file; a file that is empty after stripping yields the
empty store and leaves the file unmodified. -/
theorem claim9_load_config_cases (parse : String → Option Store) :
    (load_config parse none = ([], some "\x7b\x7d")) ∧
    (∀ s, pyStrip s ≠ "" → parse (pyStrip s) = none →
      load_config parse (some s) = ([], some "\x7b\x7d")) ∧
    (∀ s store, pyStrip s ≠ "" → parse (pyStrip s) = some store →
      load_config parse (some s) = (store, some s)) ∧
    (∀ s, pyStrip s = "" → load_config parse (some s) = ([], some s)) := by
  refine ⟨rfl, ?_, ?_, ?_⟩
  · intro s h1 h2
    simp [load_config, h1, h2]
  · intro s store h1 h2
    simp [load_config, h1, h2]
  · intro s h1
    simp [load_config, h1]

/-- Witness for the amended C9, on a concrete file that parses to a
one-entry store. -/
theorem claim9_witness :
    (pyStrip "ok" ≠ "" ∧ parseW (pyStrip "ok") = some [("u", "/mnt/x")]) ∧
    load_config parseW (some "ok") = ([("u", "/mnt/x")], some "ok") :=
  ⟨⟨by decide, by decide⟩,
    (claim9_load_config_cases parseW).2.2.1 "ok" [("u", "/mnt/x")] (by decide) (by decide)⟩

/-- Claim C2, counterexample: one iteration of the control loop on a
machine whose `pyudev` block-device enumeration raises.  The exception
escapes `manage_drives` and the (unwrapped) loop body, terminating the loop
(`Except.error`) instead of being logged and continuing — refuting the
claim that every unexpected failure inside a pass is caught. -/
theorem claim2_counterexample :
    loop_iterate envDfail fenvTriv false false 1 s0W = .error () := rfl

/-- Claim C2 as amended: failures of the underlying device/filesystem
commands (findmnt, blockdev, lsblk, blkid, mount, e2fsck, mkfs, parted,
statvfs, moves, removes) are absorbed by the per-helper exception handlers,
so no command failure terminates the loop; but the loop body itself is not
wrapped, and an exception escaping it (such as a device-enumeration
failure) terminates the loop.  Formally: whenever the enumeration does not
raise, a pass completes normally for every oracle behaviour. -/
theorem claim2_command_failures_absorbed (denv : Env) (fenv : FEnv)
    (skipDisks doFlush : Bool) (s : SysState) (h : denv.udevFail = false) :
    ∃ s', loop_pass denv fenv skipDisks doFlush s = .ok s' := by
  unfold loop_pass manage_drives list_block_devices
  cases skipDisks <;> simp [h]

/-- Witness for the amended C2. -/
theorem claim2_witness :
    envDok.udevFail = false ∧
    ∃ s', loop_pass envDok fenvTriv false false s0W = .ok s' :=
  ⟨rfl, claim2_command_failures_absorbed envDok fenvTriv false false s0W rfl⟩

/-! ## Mount-failure escalation (C4) -/

theorem attempt_mount_trace (env : Env) (st : DState) (p mp : String) :
    (attempt_mount env st p mp).2.2 = [.mountA p mp] := by
  unfold attempt_mount
  split <;> rfl

theorem attempt_mount_bool (env : Env) (st : DState) (p mp : String) :
    (attempt_mount env st p mp).1 =
      env.mountOk p (decide (p ∈ st.repaired)) (decide (p ∈ st.formatted)) := by
  unfold attempt_mount
  split <;> simp_all

theorem format_partition_trace (env : Env) (st : DState) (p : String) :
    (format_partition env st p).2 = [.format p] := by
  unfold format_partition
  split <;> rfl

theorem run_fsck_trace (env : Env) (st : DState) (p : String) :
    (run_fsck env st p).2.2 = [.fsckA p] := by
  unfold run_fsck
  split <;> rfl

theorem run_fsck_bool (env : Env) (st : DState) (p : String) :
    (run_fsck env st p).1 = env.fsckOk p := by
  unfold run_fsck
  split <;> simp_all

/-- Claim C4 (repair escalation order): the exact command sequence of
`attempt_repair_and_remount`.  For a partition whose filesystem type equals
the target ext4, the first command is the fsck repair and the second a
mount retry; a reformat (always followed by one more mount retry) happens
exactly when the repair fails or the post-repair mount fails.  For a
partition of any other type, the sequence is reformat then mount, with no
repair ever attempted. -/
theorem claim4_repair_escalation_order (env : Env) (st : DState) (p mp : String) :
    (attempt_repair_and_remount env st p mp).2.2 =
      (if get_partition_fs_type env st p = some FS_TYPE then
        if env.fsckOk p then
          if env.mountOk p true (decide (p ∈ st.formatted)) then
            [DAction.fsckA p, .mountA p mp]
          else [DAction.fsckA p, .mountA p mp, .format p, .mountA p mp]
        else [DAction.fsckA p, .format p, .mountA p mp]
      else [DAction.format p, .mountA p mp]) := by
  have hd2 : p ∈ p :: st.repaired := List.mem_cons_self p st.repaired
  unfold attempt_repair_and_remount run_fsck attempt_mount format_partition
  by_cases h1 : get_partition_fs_type env st p = some FS_TYPE <;>
    by_cases h2 : env.fsckOk p <;>
    by_cases h3 : env.mountOk p true (decide (p ∈ st.formatted)) <;>
    by_cases h4 : env.mkfsOk p <;>
    simp [h1, h2, h3, h4, hd2, apply_ite]

/-! ## Trace soundness of the drive manager (for C1 and C3) -/

/-- The trace equation of `attempt_repair_and_remount` (used to reason
about which devices its commands touch). -/
theorem arr_trace_eq (env : Env) (st : DState) (p mp : String) :
    (attempt_repair_and_remount env st p mp).2.2 =
      (if get_partition_fs_type env st p = some FS_TYPE then
        if env.fsckOk p then
          if env.mountOk p true (decide (p ∈ st.formatted)) then
            [DAction.fsckA p, .mountA p mp]
          else [DAction.fsckA p, .mountA p mp, .format p, .mountA p mp]
        else [DAction.fsckA p, .format p, .mountA p mp]
      else [DAction.format p, .mountA p mp]) := by
  have hd2 : p ∈ p :: st.repaired := List.mem_cons_self p st.repaired
  unfold attempt_repair_and_remount run_fsck attempt_mount format_partition
  by_cases h1 : get_partition_fs_type env st p = some FS_TYPE <;>
    by_cases h2 : env.fsckOk p <;>
    by_cases h3 : env.mountOk p true (decide (p ∈ st.formatted)) <;>
    by_cases h4 : env.mkfsOk p <;>
    simp [h1, h2, h3, h4, hd2, apply_ite]

/-- Every command of `attempt_repair_and_remount` acts on the partition it
was given. -/
theorem arr_targets (env : Env) (st : DState) (p mp : String) :
    ∀ a ∈ (attempt_repair_and_remount env st p mp).2.2, actionTarget a = p := by
  rw [arr_trace_eq]
  split
  · split
    · split <;> simp [actionTarget]
    · simp [actionTarget]
  · simp [actionTarget]

/-- Every command of `mount_partition` acts on the partition it was given. -/
theorem mount_partition_targets (env : Env) (st : DState) (p : String) (sz : Nat) :
    ∀ a ∈ (mount_partition env st p sz).2.2, actionTarget a = p := by
  intro a ha
  unfold mount_partition at ha
  repeat'
    first
    | exact absurd ha (List.not_mem_nil a)
    | (subst ha; rfl)
    | (rcases ha with rfl | rfl <;> rfl)
    | (rcases ha with rfl | hr
       · rfl
       · exact arr_targets env _ p _ a hr)
    | (rcases ha with rfl | rfl | hr
       · rfl
       · rfl
       · exact arr_targets env _ p _ a hr)
    | (rcases ha with (rfl | rfl) | hr
       · rfl
       · rfl
       · exact arr_targets env _ p _ a hr)
    | (rw [attempt_mount_trace] at ha)
    | (simp only [List.mem_append, List.mem_singleton, List.not_mem_nil,
         false_or, or_false, List.nil_append] at ha)
    | split at ha
    | dsimp only at ha

/-- Every partition `lsblk` reports at any point of the pass lies in the
drive's partition universe. -/
theorem get_partitions_sub (env : Env) (st : DState) (d : String) :
    ∀ x ∈ get_partitions env st d, x ∈ partsUniverse env d := by
  intro x hx
  unfold get_partitions at hx
  unfold partsUniverse
  cases hb : decide (d ∈ st.parted) with
  | false => rw [hb] at hx; exact List.mem_append_left _ hx
  | true => rw [hb] at hx; exact List.mem_append_right _ hx

/-- When `create_partition_and_format` returns a partition, that partition
is one `lsblk` reported for the drive. -/
theorem create_some_mem (env : Env) (st : DState) (d p : String)
    (h : (create_partition_and_format env st d).1 = some p) :
    p ∈ partsUniverse env d := by
  unfold create_partition_and_format at h
  split at h
  · split at h
    · dsimp only at h
      split at h
      next heq => exact absurd h (by simp)
      next q rest heq =>
        dsimp only at h
        have hqp : q = p := by simpa using h
        exact hqp ▸ get_partitions_sub env _ d q (by rw [heq]; exact List.mem_cons_self q rest)
    · exact absurd h (by simp)
  · exact absurd h (by simp)

/-- Every command of `create_partition_and_format` acts on the drive itself
or on one of its partitions. -/
theorem create_targets (env : Env) (st : DState) (d : String) :
    ∀ a ∈ (create_partition_and_format env st d).2.2,
      actionTarget a = d ∨ actionTarget a ∈ partsUniverse env d := by
  intro a ha
  unfold create_partition_and_format at ha
  split at ha
  · split at ha
    · dsimp only at ha
      split at ha
      next heq =>
        simp only [List.mem_cons, List.not_mem_nil, or_false] at ha
        rcases ha with rfl | rfl <;> exact Or.inl rfl
      next q rest heq =>
        dsimp only at ha
        rw [format_partition_trace] at ha
        simp only [List.mem_append, List.mem_cons, List.mem_singleton,
          List.not_mem_nil, or_false, false_or] at ha
        rcases ha with (rfl | rfl) | rfl
        · exact Or.inl rfl
        · exact Or.inl rfl
        · exact Or.inr
            (get_partitions_sub env _ d q (by rw [heq]; exact List.mem_cons_self q rest))
    · simp only [List.mem_cons, List.not_mem_nil, or_false] at ha
      rcases ha with rfl | rfl <;> exact Or.inl rfl
  · simp only [List.mem_cons, List.not_mem_nil, or_false] at ha
    subst ha
    exact Or.inl rfl

/-- Every command of the per-partition loop acts on a member of the given
partition set. -/
theorem partsLoop_targets (env : Env) (sz : Nat) (U : List String) :
    ∀ (parts : List String) (st : DState), (∀ p ∈ parts, p ∈ U) →
      ∀ a ∈ (partsLoop env sz parts st).2, actionTarget a ∈ U := by
  intro parts
  induction parts with
  | nil =>
    intro st _ a ha
    simp [partsLoop] at ha
  | cons p ps ih =>
    intro st hsub a ha
    simp only [partsLoop] at ha
    split at ha
    · rw [format_partition_trace] at ha
      rcases List.mem_append.mp ha with h12 | h3
      · rcases List.mem_append.mp h12 with h1 | h2
        · obtain rfl : a = DAction.format p := by simpa using h1
          exact hsub p (List.mem_cons_self p ps)
        · rw [mount_partition_targets env _ p sz a h2]
          exact hsub p (List.mem_cons_self p ps)
      · exact ih _ (fun q hq => hsub q (List.mem_cons_of_mem p hq)) a h3
    · rcases List.mem_append.mp ha with h12 | h3
      · rcases List.mem_append.mp h12 with h1 | h2
        · exact absurd h1 (List.not_mem_nil a)
        · rw [mount_partition_targets env _ p sz a h2]
          exact hsub p (List.mem_cons_self p ps)
      · exact ih _ (fun q hq => hsub q (List.mem_cons_of_mem p hq)) a h3

/-- Per-drive soundness: a drive only produces commands when it is not the
boot drive and is at least the size threshold, and every command targets
the drive or one of its partitions. -/
theorem driveStep_sound (env : Env) (st : DState) (d : String) :
    ∀ a ∈ (driveStep env st d).2,
      is_boot_drive env d = false ∧ SIZE_THRESHOLD ≤ get_device_size env d ∧
      actionTarget a ∈ d :: partsUniverse env d := by
  intro a ha
  unfold driveStep at ha
  split at ha
  · exact absurd ha (List.not_mem_nil a)
  next hboot =>
    rw [Bool.not_eq_true] at hboot
    dsimp only at ha
    split at ha
    · exact absurd ha (List.not_mem_nil a)
    next hsize =>
      refine ⟨hboot, Nat.not_lt.mp hsize, ?_⟩
      split at ha
      next heq =>
        try dsimp only at ha
        split at ha
        next q heqc =>
          rcases List.mem_append.mp ha with h1 | h2
          · rcases create_targets env st d a h1 with h | h
            · exact h ▸ List.mem_cons_self d _
            · exact List.mem_cons_of_mem d h
          · rw [mount_partition_targets env _ q _ a h2]
            exact List.mem_cons_of_mem d (create_some_mem env st d q heqc)
        next heqc =>
          rcases create_targets env st d a ha with h | h
          · exact h ▸ List.mem_cons_self d _
          · exact List.mem_cons_of_mem d h
      next q qs heq =>
        have hq : actionTarget a ∈ partsUniverse env d := by
          refine partsLoop_targets env _ (partsUniverse env d) (q :: qs) st ?_ a ha
          intro x hx
          exact get_partitions_sub env st d x (by rw [heq]; exact hx)
        exact List.mem_cons_of_mem d hq

/-- Trace soundness of one `manage_drives` pass: every command recorded in
the pass trace belongs to some enumerated drive that is neither the boot
drive nor below the size threshold, and targets that drive or one of its
partitions. -/
theorem manageDrivesRun_sound (env : Env) :
    ∀ (ds : List String) (st : DState) (a : DAction),
      a ∈ (manageDrivesRun env ds st).2 →
      ∃ d, d ∈ ds ∧ is_boot_drive env d = false ∧
        SIZE_THRESHOLD ≤ get_device_size env d ∧
        actionTarget a ∈ d :: partsUniverse env d := by
  intro ds
  induction ds with
  | nil =>
    intro st a ha
    simp [manageDrivesRun] at ha
  | cons d ds ih =>
    intro st a ha
    simp only [manageDrivesRun] at ha
    rcases List.mem_append.mp ha with h | h
    · obtain ⟨h1, h2, h3⟩ := driveStep_sound env st d a h
      exact ⟨d, List.mem_cons_self d ds, h1, h2, h3⟩
    · obtain ⟨d', hd', hrest⟩ := ih _ a h
      exact ⟨d', List.mem_cons_of_mem d hd', hrest⟩

/-- Claim C1 (boot-device protection): for every enumerated block device
that backs the live root filesystem (`is_boot_drive` is true for it), no
command of a `manage_drives` pass — partition-table creation, formatting,
fsck, mount, or fstab write — ever targets that device or any of its
partitions, from any starting state.  The separation hypothesis `hsep`
states that distinct physical drives do not share device nodes (a non-boot
drive is not a partition of the boot drive and their partition node sets
are disjoint), which is how `lsblk` behaves on real hardware. -/
theorem claim1_boot_drive_protected (env : Env) (st0 : DState) (d : String)
    (hmem : d ∈ env.devices) (hboot : is_boot_drive env d = true)
    (hsep : ∀ d' ∈ env.devices, is_boot_drive env d' = false →
      d' ∉ partsUniverse env d ∧
      ∀ x ∈ partsUniverse env d', x ≠ d ∧ x ∉ partsUniverse env d) :
    ∀ a ∈ (manageDrivesRun env env.devices st0).2,
      actionTarget a ≠ d ∧ actionTarget a ∉ partsUniverse env d := by
  intro a ha
  obtain ⟨d', hd', hb', hs', ht⟩ := manageDrivesRun_sound env env.devices st0 a ha
  obtain ⟨hd'nin, hx⟩ := hsep d' hd' hb'
  rcases List.mem_cons.mp ht with heq | hmemp
  · refine ⟨?_, heq ▸ hd'nin⟩
    intro had
    rw [had] at heq
    rw [← heq] at hb'
    rw [hboot] at hb'
    exact absurd hb' (by decide)
  · exact ⟨(hx _ hmemp).1, (hx _ hmemp).2⟩

/-- Claim C3 (size-threshold exclusion): a device whose reported size is
below the 512 GB threshold is never targeted by any command of a
`manage_drives` pass (no partitioning, no formatting, no reformatting, and
also no fsck/mount/fstab action), on that device or any of its partitions,
regardless of its boot status.  `hsep` is the same physical-separation
hypothesis as for the boot-drive protection, stated for the qualifying
drives. -/
theorem claim3_small_drive_protected (env : Env) (st0 : DState) (d : String)
    (hsmall : get_device_size env d < SIZE_THRESHOLD)
    (hsep : ∀ d' ∈ env.devices, SIZE_THRESHOLD ≤ get_device_size env d' →
      d' ∉ partsUniverse env d ∧
      ∀ x ∈ partsUniverse env d', x ≠ d ∧ x ∉ partsUniverse env d) :
    ∀ a ∈ (manageDrivesRun env env.devices st0).2,
      actionTarget a ≠ d ∧ actionTarget a ∉ partsUniverse env d := by
  intro a ha
  obtain ⟨d', hd', hb', hs', ht⟩ := manageDrivesRun_sound env env.devices st0 a ha
  obtain ⟨hd'nin, hx⟩ := hsep d' hd' hs'
  rcases List.mem_cons.mp ht with heq | hmemp
  · refine ⟨?_, heq ▸ hd'nin⟩
    intro had
    rw [had] at heq
    rw [← heq] at hs'
    exact absurd hs' (Nat.not_le.mpr hsmall)
  · exact ⟨(hx _ hmemp).1, (hx _ hmemp).2⟩

/-- Witness for C1 on the concrete machine: `/dev/sda` backs the root
filesystem and the pass trace (which formats nothing and mounts
`/dev/sdb1`) avoids it and its partitions entirely. -/
theorem claim1_witness :
    ("/dev/sda" ∈ envW.devices ∧ is_boot_drive envW "/dev/sda" = true ∧
      (∀ d' ∈ envW.devices, is_boot_drive envW d' = false →
        d' ∉ partsUniverse envW "/dev/sda" ∧
        ∀ x ∈ partsUniverse envW d', x ≠ "/dev/sda" ∧ x ∉ partsUniverse envW "/dev/sda")) ∧
    ∀ a ∈ (manageDrivesRun envW envW.devices st0W).2,
      actionTarget a ≠ "/dev/sda" ∧ actionTarget a ∉ partsUniverse envW "/dev/sda" :=
  ⟨⟨by decide, by decide, by decide⟩,
    claim1_boot_drive_protected envW st0W "/dev/sda" (by decide) (by decide) (by decide)⟩

/-- Witness for C3 on the concrete machine: the 100 GB `/dev/sdc` is below
the threshold and the pass trace never touches it. -/
theorem claim3_witness :
    (get_device_size envW "/dev/sdc" < SIZE_THRESHOLD ∧
      (∀ d' ∈ envW.devices, SIZE_THRESHOLD ≤ get_device_size envW d' →
        d' ∉ partsUniverse envW "/dev/sdc" ∧
        ∀ x ∈ partsUniverse envW d', x ≠ "/dev/sdc" ∧ x ∉ partsUniverse envW "/dev/sdc")) ∧
    ∀ a ∈ (manageDrivesRun envW envW.devices st0W).2,
      actionTarget a ≠ "/dev/sdc" ∧ actionTarget a ∉ partsUniverse envW "/dev/sdc" :=
  ⟨⟨by decide, by decide⟩,
    claim3_small_drive_protected envW st0W "/dev/sdc" (by decide) (by decide)⟩

/-! ## State-preservation lemmas for mount idempotence (C5) -/

/-- When reformatting does not change the UUID oracle (the fixed partition
identity the idempotence claim quantifies over), `get_device_uuid` is
state-independent. -/
theorem get_uuid_stable (env : Env) (p : String)
    (h : env.uuidAfterFormat p = env.blkidUUID p) (st : DState) :
    get_device_uuid env st p = env.blkidUUID p := by
  unfold get_device_uuid
  split <;> simp [h]

theorem attempt_mount_config (env : Env) (st : DState) (p mp : String) :
    (attempt_mount env st p mp).2.1.config = st.config := by
  unfold attempt_mount
  split <;> rfl

theorem attempt_mount_fstab (env : Env) (st : DState) (p mp : String) :
    (attempt_mount env st p mp).2.1.fstab = st.fstab := by
  unfold attempt_mount
  split <;> rfl

theorem attempt_mount_mem_of_true (env : Env) (st : DState) (p mp : String)
    (h : (attempt_mount env st p mp).1 = true) :
    p ∈ (attempt_mount env st p mp).2.1.nowMounted := by
  unfold attempt_mount at h ⊢
  split at h
  next hc => rw [if_pos hc]; exact List.mem_cons_self _ _
  next hc => exact absurd h (by simp)

theorem attempt_mount_state_of_false (env : Env) (st : DState) (p mp : String)
    (h : (attempt_mount env st p mp).1 = false) :
    (attempt_mount env st p mp).2.1 = st := by
  unfold attempt_mount at h ⊢
  split at h
  next hc => exact absurd h (by simp)
  next hc => rw [if_neg hc]

theorem format_partition_config (env : Env) (st : DState) (p : String) :
    (format_partition env st p).1.config = st.config := by
  unfold format_partition
  split <;> rfl

theorem format_partition_fstab (env : Env) (st : DState) (p : String) :
    (format_partition env st p).1.fstab = st.fstab := by
  unfold format_partition
  split <;> rfl

theorem format_partition_nowMounted (env : Env) (st : DState) (p : String) :
    (format_partition env st p).1.nowMounted = st.nowMounted := by
  unfold format_partition
  split <;> rfl

theorem run_fsck_config (env : Env) (st : DState) (p : String) :
    (run_fsck env st p).2.1.config = st.config := by
  unfold run_fsck
  split <;> rfl

theorem run_fsck_fstab (env : Env) (st : DState) (p : String) :
    (run_fsck env st p).2.1.fstab = st.fstab := by
  unfold run_fsck
  split <;> rfl

theorem run_fsck_nowMounted (env : Env) (st : DState) (p : String) :
    (run_fsck env st p).2.1.nowMounted = st.nowMounted := by
  unfold run_fsck
  split <;> rfl

/-- `attempt_repair_and_remount` never touches the config store or fstab. -/
theorem arr_config (env : Env) (st : DState) (p mp : String) :
    (attempt_repair_and_remount env st p mp).2.1.config = st.config := by
  unfold attempt_repair_and_remount
  split
  · dsimp only
    split
    · split
      · rw [attempt_mount_config, run_fsck_config]
      · rw [attempt_mount_config, format_partition_config, attempt_mount_config, run_fsck_config]
    · rw [attempt_mount_config, format_partition_config, run_fsck_config]
  · rw [attempt_mount_config, format_partition_config]

theorem arr_fstab (env : Env) (st : DState) (p mp : String) :
    (attempt_repair_and_remount env st p mp).2.1.fstab = st.fstab := by
  unfold attempt_repair_and_remount
  split
  · dsimp only
    split
    · split
      · rw [attempt_mount_fstab, run_fsck_fstab]
      · rw [attempt_mount_fstab, format_partition_fstab, attempt_mount_fstab, run_fsck_fstab]
    · rw [attempt_mount_fstab, format_partition_fstab, run_fsck_fstab]
  · rw [attempt_mount_fstab, format_partition_fstab]

/-- When `attempt_repair_and_remount` reports success, the partition is
recorded mounted. -/
theorem arr_mem_of_true (env : Env) (st : DState) (p mp : String)
    (h : (attempt_repair_and_remount env st p mp).1 = true) :
    p ∈ (attempt_repair_and_remount env st p mp).2.1.nowMounted := by
  unfold attempt_repair_and_remount at h ⊢
  by_cases h1 : get_partition_fs_type env st p = some FS_TYPE
  · rw [if_pos h1] at h ⊢
    try dsimp only at h ⊢
    by_cases h2 : (run_fsck env st p).1 = true
    · rw [if_pos h2] at h ⊢
      try dsimp only at h ⊢
      by_cases h3 : (attempt_mount env (run_fsck env st p).2.1 p mp).1 = true
      · rw [if_pos h3] at h ⊢
        exact attempt_mount_mem_of_true _ _ _ _ h3
      · rw [if_neg h3] at h ⊢
        try dsimp only at h ⊢
        exact attempt_mount_mem_of_true _ _ _ _ h
    · rw [if_neg h2] at h ⊢
      try dsimp only at h ⊢
      exact attempt_mount_mem_of_true _ _ _ _ h
  · rw [if_neg h1] at h ⊢
    try dsimp only at h ⊢
    exact attempt_mount_mem_of_true _ _ _ _ h

/-- When `attempt_repair_and_remount` reports failure, it mounted nothing. -/
theorem arr_nowMounted_of_false (env : Env) (st : DState) (p mp : String)
    (h : (attempt_repair_and_remount env st p mp).1 = false) :
    (attempt_repair_and_remount env st p mp).2.1.nowMounted = st.nowMounted := by
  unfold attempt_repair_and_remount at h ⊢
  by_cases h1 : get_partition_fs_type env st p = some FS_TYPE
  · rw [if_pos h1] at h ⊢
    try dsimp only at h ⊢
    by_cases h2 : (run_fsck env st p).1 = true
    · rw [if_pos h2] at h ⊢
      try dsimp only at h ⊢
      by_cases h3 : (attempt_mount env (run_fsck env st p).2.1 p mp).1 = true
      · rw [if_pos h3] at h ⊢
        exact absurd h (by simp)
      · rw [if_neg h3] at h ⊢
        try dsimp only at h ⊢
        rw [attempt_mount_state_of_false _ _ _ _ h, format_partition_nowMounted,
          attempt_mount_state_of_false _ _ _ _ (Bool.eq_false_iff.mpr h3), run_fsck_nowMounted]
    · rw [if_neg h2] at h ⊢
      try dsimp only at h ⊢
      rw [attempt_mount_state_of_false _ _ _ _ h, format_partition_nowMounted,
        run_fsck_nowMounted]
  · rw [if_neg h1] at h ⊢
    try dsimp only at h ⊢
    rw [attempt_mount_state_of_false _ _ _ _ h, format_partition_nowMounted]

theorem cfgGet_cons_self (c : Store) (u mp : String) :
    cfgGet ((u, mp) :: c) u = some mp := by
  simp [cfgGet]

/-- A string that textually contains `key` between two other pieces passes
the Python `key in s` test. -/
theorem containsSub_append_mid (a key b : String) :
    containsSub (a ++ key ++ b) key = true := by
  unfold containsSub
  rw [decide_eq_true_iff]
  simp only [String.data_append]
  exact ⟨a.data, b.data, rfl⟩

/-- What one `mount_partition` run guarantees when a usable UUID is read:
the resolved mount path is returned, the UUID resolves to that path in the
resulting config store, afterwards the partition is either mounted or its
fstab line is present, and a pre-existing fstab line means the fstab is
left untouched. -/
theorem mount_partition_run1 (env : Env) (st : DState) (p : String) (sz : Nat) (u : String)
    (hu : get_device_uuid env st p = some u) (hne : u ≠ "") :
    ∃ mp, (mount_partition env st p sz).1 = some mp ∧
      cfgGet (mount_partition env st p sz).2.1.config u = some mp ∧
      (is_mounted env (mount_partition env st p sz).2.1 p = true ∨
        containsSub (mount_partition env st p sz).2.1.fstab ("UUID=" ++ u) = true) ∧
      (containsSub st.fstab ("UUID=" ++ u) = true →
        (mount_partition env st p sz).2.1.fstab = st.fstab) := by
  unfold mount_partition
  simp only [hu]
  rw [if_neg hne]
  cases hc : cfgGet st.config u with
  | some mp0 =>
    simp only [hc]
    try dsimp only
    refine ⟨mp0, ?_⟩
    by_cases hm : is_mounted env st p = true
    · rw [if_pos hm]
      exact ⟨rfl, hc, Or.inl hm, fun _ => rfl⟩
    · rw [if_neg hm]
      by_cases hcont : containsSub st.fstab ("UUID=" ++ u) = true
      · rw [if_pos hcont]
        try dsimp only
        by_cases hmk : (attempt_mount env st p mp0).1 = true
        · rw [if_pos hmk]
          exact ⟨rfl, by rw [attempt_mount_config]; exact hc,
            Or.inr (by rw [attempt_mount_fstab]; exact hcont),
            fun _ => by rw [attempt_mount_fstab]⟩
        · rw [if_neg hmk]
          try dsimp only
          exact ⟨rfl, by rw [arr_config, attempt_mount_config]; exact hc,
            Or.inr (by rw [arr_fstab, attempt_mount_fstab]; exact hcont),
            fun _ => by rw [arr_fstab, attempt_mount_fstab]⟩
      · rw [if_neg hcont]
        try dsimp only
        by_cases hmk : (attempt_mount env
            { st with fstab := st.fstab ++ ("UUID=" ++ u) ++
                (" " ++ mp0 ++ " " ++ FS_TYPE ++ " defaults,noatime 0 2\n") } p mp0).1 = true
        · rw [if_pos hmk]
          refine ⟨rfl, by rw [attempt_mount_config]; exact hc,
            Or.inr (by rw [attempt_mount_fstab]; exact containsSub_append_mid _ _ _),
            fun hcst => absurd hcst hcont⟩
        · rw [if_neg hmk]
          try dsimp only
          refine ⟨rfl, by rw [arr_config, attempt_mount_config]; exact hc,
            Or.inr (by rw [arr_fstab, attempt_mount_fstab]; exact containsSub_append_mid _ _ _),
            fun hcst => absurd hcst hcont⟩
  | none =>
    simp only [hc]
    try dsimp only
    refine ⟨MOUNT_BASE ++ "/" ++ generate_mount_name sz u, ?_⟩
    by_cases hm : is_mounted env { st with config :=
        (u, MOUNT_BASE ++ "/" ++ generate_mount_name sz u) :: st.config } p = true
    · rw [if_pos hm]
      exact ⟨rfl, cfgGet_cons_self _ _ _, Or.inl hm, fun _ => rfl⟩
    · rw [if_neg hm]
      by_cases hcont : containsSub st.fstab ("UUID=" ++ u) = true
      · rw [if_pos hcont]
        try dsimp only
        by_cases hmk : (attempt_mount env { st with config :=
            (u, MOUNT_BASE ++ "/" ++ generate_mount_name sz u) :: st.config } p
            (MOUNT_BASE ++ "/" ++ generate_mount_name sz u)).1 = true
        · rw [if_pos hmk]
          exact ⟨rfl, by rw [attempt_mount_config]; exact cfgGet_cons_self _ _ _,
            Or.inr (by rw [attempt_mount_fstab]; exact hcont),
            fun _ => by rw [attempt_mount_fstab]⟩
        · rw [if_neg hmk]
          try dsimp only
          exact ⟨rfl, by rw [arr_config, attempt_mount_config]; exact cfgGet_cons_self _ _ _,
            Or.inr (by rw [arr_fstab, attempt_mount_fstab]; exact hcont),
            fun _ => by rw [arr_fstab, attempt_mount_fstab]⟩
      · rw [if_neg hcont]
        try dsimp only
        by_cases hmk : (attempt_mount env { st with
            config := (u, MOUNT_BASE ++ "/" ++ generate_mount_name sz u) :: st.config,
            fstab := st.fstab ++ ("UUID=" ++ u) ++
              (" " ++ (MOUNT_BASE ++ "/" ++ generate_mount_name sz u) ++ " " ++ FS_TYPE ++
                " defaults,noatime 0 2\n") } p
            (MOUNT_BASE ++ "/" ++ generate_mount_name sz u)).1 = true
        · rw [if_pos hmk]
          refine ⟨rfl, by rw [attempt_mount_config]; exact cfgGet_cons_self _ _ _,
            Or.inr (by rw [attempt_mount_fstab]; exact containsSub_append_mid _ _ _),
            fun hcst => absurd hcst hcont⟩
        · rw [if_neg hmk]
          try dsimp only
          refine ⟨rfl, by rw [arr_config, attempt_mount_config]; exact cfgGet_cons_self _ _ _,
            Or.inr (by rw [arr_fstab, attempt_mount_fstab]; exact containsSub_append_mid _ _ _),
            fun hcst => absurd hcst hcont⟩

/-- A `mount_partition` run that starts from a state where the UUID already
resolves in the config store and the partition is mounted-or-listed returns
the stored path and changes neither the config store nor fstab. -/
theorem mount_partition_resolved (env : Env) (st : DState) (p : String) (sz : Nat)
    (u mp : String)
    (hu : get_device_uuid env st p = some u) (hne : u ≠ "")
    (hcfg : cfgGet st.config u = some mp)
    (hmnt : is_mounted env st p = true ∨ containsSub st.fstab ("UUID=" ++ u) = true) :
    (mount_partition env st p sz).1 = some mp ∧
    (mount_partition env st p sz).2.1.config = st.config ∧
    (mount_partition env st p sz).2.1.fstab = st.fstab := by
  unfold mount_partition
  simp only [hu]
  rw [if_neg hne]
  simp only [hcfg]
  try dsimp only
  by_cases hm : is_mounted env st p = true
  · rw [if_pos hm]
    exact ⟨rfl, rfl, rfl⟩
  · rw [if_neg hm]
    have hcont : containsSub st.fstab ("UUID=" ++ u) = true := by
      rcases hmnt with h | h
      · exact absurd h hm
      · exact h
    rw [if_pos hcont]
    try dsimp only
    by_cases hmk : (attempt_mount env st p mp).1 = true
    · rw [if_pos hmk]
      exact ⟨rfl, attempt_mount_config _ _ _ _, attempt_mount_fstab _ _ _ _⟩
    · rw [if_neg hmk]
      try dsimp only
      exact ⟨rfl, by rw [arr_config, attempt_mount_config],
        by rw [arr_fstab, attempt_mount_fstab]⟩

/-- Claim C5 (idempotent mount assignment): with the partition's UUID held
fixed (the identity the claim quantifies over), running `mount_partition`
twice in a row resolves the same mount path both times, the second run
changes neither the config store nor fstab (so the newly assigned path was
persisted before reuse and no duplicate fstab line is ever appended), and a
run that starts with the UUID's fstab line already present leaves fstab
untouched. -/
theorem claim5_mount_assignment_idempotent (env : Env) (st : DState) (p : String) (sz : Nat)
    (hstable : env.uuidAfterFormat p = env.blkidUUID p) :
    (mount_partition env (mount_partition env st p sz).2.1 p sz).1 =
      (mount_partition env st p sz).1 ∧
    (mount_partition env (mount_partition env st p sz).2.1 p sz).2.1.config =
      (mount_partition env st p sz).2.1.config ∧
    (mount_partition env (mount_partition env st p sz).2.1 p sz).2.1.fstab =
      (mount_partition env st p sz).2.1.fstab ∧
    (∀ u, get_device_uuid env st p = some u →
      containsSub st.fstab ("UUID=" ++ u) = true →
      (mount_partition env st p sz).2.1.fstab = st.fstab) := by
  have hgu := get_uuid_stable env p hstable
  cases hub : env.blkidUUID p with
  | none =>
    have h1 : mount_partition env st p sz = (none, st, []) := by
      unfold mount_partition
      simp only [hgu st, hub]
    simp [h1]
  | some u =>
    by_cases hne : u = ""
    · subst hne
      have h1 : mount_partition env st p sz = (none, st, []) := by
        unfold mount_partition
        simp only [hgu st, hub]
        rw [if_pos trivial]
      simp [h1]
    · have hu1 : get_device_uuid env st p = some u := by rw [hgu st, hub]
      obtain ⟨mp, hpath, hcfg, hmnt, hpre⟩ := mount_partition_run1 env st p sz u hu1 hne
      have hu2 : get_device_uuid env (mount_partition env st p sz).2.1 p = some u := by
        rw [hgu _, hub]
      obtain ⟨hpath2, hcfg2, hfstab2⟩ :=
        mount_partition_resolved env (mount_partition env st p sz).2.1 p sz u mp hu2 hne
          hcfg hmnt
      refine ⟨by rw [hpath2, hpath], hcfg2, hfstab2, ?_⟩
      intro u' hu' hcont
      have huu : u' = u := by
        rw [hu1] at hu'
        exact (Option.some.inj hu').symm
      subst huu
      exact hpre hcont

/-- Witness for C5 on the concrete machine whose first mount fails and
succeeds only after reformatting (the full escalation runs between the two
calls). -/
theorem claim5_witness :
    envC5.uuidAfterFormat "/dev/sdb1" = envC5.blkidUUID "/dev/sdb1" ∧
    ((mount_partition envC5 (mount_partition envC5 st0W "/dev/sdb1" (10 ^ 12)).2.1
        "/dev/sdb1" (10 ^ 12)).1 =
      (mount_partition envC5 st0W "/dev/sdb1" (10 ^ 12)).1 ∧
    (mount_partition envC5 (mount_partition envC5 st0W "/dev/sdb1" (10 ^ 12)).2.1
        "/dev/sdb1" (10 ^ 12)).2.1.config =
      (mount_partition envC5 st0W "/dev/sdb1" (10 ^ 12)).2.1.config ∧
    (mount_partition envC5 (mount_partition envC5 st0W "/dev/sdb1" (10 ^ 12)).2.1
        "/dev/sdb1" (10 ^ 12)).2.1.fstab =
      (mount_partition envC5 st0W "/dev/sdb1" (10 ^ 12)).2.1.fstab ∧
    (∀ u, get_device_uuid envC5 st0W "/dev/sdb1" = some u →
      containsSub st0W.fstab ("UUID=" ++ u) = true →
      (mount_partition envC5 st0W "/dev/sdb1" (10 ^ 12)).2.1.fstab = st0W.fstab)) :=
  ⟨rfl, claim5_mount_assignment_idempotent envC5 st0W "/dev/sdb1" (10 ^ 12) rfl⟩
